import Mathlib

/-!
Shallow embedding of the set-algebra engine in `pyomo/core/base/set.py`
(classes `_SetData`, `_InfiniteSet`, `_FiniteSetData`, `_OrderedSetMixin`,
`_OrderedSetData`) together with the parts of the external collaborators the
engine relies on (`flatten_tuple` from pyutilib, the `_InfiniteRange`
descriptors, the universal `Any` domain, and the ordering context supplied by
the owning component), modelled from the specification where the source is not
in the repository snapshot.

Python values used as set elements are modelled by `Val` (scalars and
arbitrarily nested tuples); Python exceptions by `PyErr`; a method that can
raise returns `Except PyErr _`.
-/

/-- A Python value usable as a set element: a hashable scalar (modelled by an
integer) or a tuple, possibly nested.  A tuple is represented by right-nested
`cons` cells ending in `nilt`, so the tuple `(a, b)` is
`cons a (cons b nilt)` and the nested tuple `(a, (b,))` is
`cons a (cons (cons b nilt) nilt)`.  This is the standard unambiguous
encoding of nested tuples and keeps every function on values structurally
recursive. -/
inductive Val where
  | atom : Int → Val
  | nilt : Val
  | cons : Val → Val → Val
deriving DecidableEq, Repr

/-- Convenience constructor: the tuple holding the given list of items. -/
def tupL : List Val → Val := fun l => l.foldr Val.cons Val.nilt

/-- Python errors raised by the set engine.  `valueError` is the
DomainViolation raised by `add`; `indexError` carries the message that
distinguishes the NotFound and IndexOutOfRange conditions of the spec. -/
inductive PyErr where
  | valueError : PyErr
  | indexError : String → PyErr
deriving DecidableEq, Repr

/-- Worker for pyutilib's `flatten_tuple`: `flattenItems t acc` prepends the
recursively flattened items of the tuple `t` onto the already-flattened tail
`acc`.  A nested tuple item is spliced into the surrounding tuple; the final
`atom` case covers a non-tuple argument (unreachable from `flatten_tuple`,
which only passes tuples) and keeps the function total. -/
def flattenItems : Val → Val → Val
  | Val.nilt, acc => acc
  | Val.cons (Val.atom n) rest, acc => Val.cons (Val.atom n) (flattenItems rest acc)
  | Val.cons inner rest, acc => flattenItems inner (flattenItems rest acc)
  | Val.atom n, acc => Val.cons (Val.atom n) acc

/-- Models pyutilib's `flatten_tuple`: flatten a (possibly nested) tuple into
one flat tuple; a non-tuple value is returned unchanged.  This is the
canonicalization applied by `add` before storage (set.py lines 386, 504). -/
def flatten_tuple : Val → Val
  | Val.atom n => Val.atom n
  | t => flattenItems t Val.nilt

/-- Modelled from the spec: `_InfiniteRange` is not in the repository
snapshot (only its use sites are).  Per the spec a Range is "an immutable
descriptor of a contiguous or regularly-spaced interval of values (bounded or
unbounded), with a membership test"; we model the contiguous interval with
optional integer bounds (`none` = unbounded on that side). -/
structure InfiniteRange where
  lb : Option Int
  ub : Option Int
deriving DecidableEq, Repr

/-- Membership of a value in a range: a scalar between the bounds.  Tuples are
not members of scalar ranges. -/
def InfiniteRange.mem (r : InfiniteRange) (v : Val) : Bool :=
  match v with
  | Val.atom n =>
      (match r.lb with
       | none => true
       | some l => decide (l ≤ n)) &&
      (match r.ub with
       | none => true
       | some u => decide (n ≤ u))
  | _ => false

/-- Strict comparison of an upper bound against a lower bound, where a missing
bound stands for the corresponding infinity (so the comparison is false). -/
def ubLtLb : Option Int → Option Int → Bool
  | some a, some b => decide (a < b)
  | _, _ => false

/-- Modelled from the spec: disjointness of two ranges, used by the
infinite-infinite branch of `_SetData.isdisjoint`.  Two intervals are disjoint
exactly when one ends before the other begins. -/
def InfiniteRange.isdisjoint (r s : InfiniteRange) : Bool :=
  ubLtLb r.ub s.lb || ubLtLb s.ub r.lb

/-- Outer lower bound at or below the inner lower bound (`none` = -infinity on
the outer side dominates). -/
def lbLeLb : Option Int → Option Int → Bool
  | none, _ => true
  | some _, none => false
  | some a, some b => decide (a ≤ b)

/-- Inner upper bound at or below the outer upper bound (`none` = +infinity on
the outer side dominates). -/
def ubLeUb : Option Int → Option Int → Bool
  | _, none => true
  | none, some _ => false
  | some a, some b => decide (a ≤ b)

/-- Modelled from the spec: range containment `r ⊆ s`, used by the
infinite-infinite branches of `_SetData.issubset` and `issuperset`. -/
def InfiniteRange.issubset (r s : InfiniteRange) : Bool :=
  lbLeLb s.lb r.lb && ubLeUb r.ub s.ub

/-- A concrete `_SetData` instance: either a `_FiniteSetData`-style finite set
holding its stored canonical elements, or an `_InfiniteSet` holding its
ordered list of ranges (set.py lines 311-328).  The generic `_SetData`
operators below dispatch on this shape exactly as the source branches on
`self.is_finite()` / `other.is_finite()`; the source branch converting a
non-Set `other` argument to a Python `set` is outside the engine's Set-to-Set
contract and is not modelled. -/
inductive SetData where
  | fin : List Val → SetData
  | inf : List InfiniteRange → SetData
deriving DecidableEq, Repr

/-- Models `_SetData.is_finite` and its `_FiniteSetMixin` override (set.py
lines 135-137 and 337-339). -/
def SetData.is_finite : SetData → Bool
  | .fin _ => true
  | .inf _ => false

/-- Models `__contains__`: for a finite set, membership in the stored values
(set.py lines 361-365); for an infinite set, membership in any range (set.py
lines 321-325). -/
def SetData.contains : SetData → Val → Bool
  | .fin vs, v => vs.contains v
  | .inf rs, v => rs.any (fun r => r.mem v)

/-- Models `_InfiniteSet.ranges` (set.py lines 327-328).  Only infinite sets
carry ranges; the operators below only consult `ranges` on the `inf` shape,
mirroring the source, where `ranges()` exists only on `_InfiniteSet`. -/
def SetData.ranges : SetData → List InfiniteRange
  | .fin _ => []
  | .inf rs => rs

/-- Models `_SetData.issubset` (set.py lines 187-207): a finite self iterates
its elements and tests membership in the other set (whatever its shape); an
infinite self is never a subset of a finite other; two infinite sets compare
ranges, every range of self contained in some range of other. -/
def SetData.issubset : SetData → SetData → Bool
  | .fin vs, t => vs.all (fun x => t.contains x)
  | .inf _, .fin _ => false
  | .inf rs, .inf ss => rs.all (fun r => ss.any (fun s => r.issubset s))

/-- Models `_SetData.isdisjoint` (set.py lines 163-185).  The result is
`Option Bool` because the Python method returns a bool from the two branches
where at least one operand is finite, but the infinite-infinite branch
evaluates `all(r.isdisjoint(s) ...)` WITHOUT a `return` statement, so the
method falls through and returns `None`: that branch is `none` here, and the
discarded comparison does not influence the result. -/
def SetData.isdisjoint : SetData → SetData → Option Bool
  | .fin vs, t => some (vs.all (fun x => !(t.contains x)))
  | .inf rs, .fin vs => some (vs.all (fun x => !(SetData.contains (.inf rs) x)))
  | .inf _, .inf _ => none

/-- Models `_SetData.__eq__` restricted to Set operands (set.py lines
139-161): two finite sets are equal iff they have the same length and every
element of self is contained in other; a finite and an infinite set are never
equal; two infinite sets compare their `ranges()` tuples directly with
Python's tuple equality, i.e. element-wise in order.  The `self is other`
identity shortcut agrees with this value comparison and needs no separate
case. -/
def SetData.eq : SetData → SetData → Bool
  | .fin vs, .fin ws => vs.length == ws.length && vs.all (fun x => ws.contains x)
  | .fin _, .inf _ => false
  | .inf _, .fin _ => false
  | .inf rs, .inf ss => rs == ss

/-- Models `__len__` dispatch: `_FiniteSetData.__len__` returns the number of
stored values (set.py lines 370-376), while the base `_SetData.__len__`
inherited by `_InfiniteSet` RETURNS `None` (set.py lines 132-133; the header
comment at line 101 documents "None for all infinite sets").  The `Except`
wrapper records that neither branch raises; `Option Nat` is the returned
value, `none` standing for Python's `None`. -/
def SetData.pyLen : SetData → Except PyErr (Option Nat)
  | .fin vs => Except.ok (some vs.length)
  | .inf _ => Except.ok none

/-- A set expression as built by the algebra operators of `_SetData`: a base
set, or a `_SetUnion` node over two operands.  The `_SetUnion` class itself is
not in the repository snapshot (only its constructor calls at set.py line 239
are); its shape — a composed set holding exactly two parent references — is
modelled from the spec. -/
inductive SetExpr where
  | base : SetData → SetExpr
  | SetUnion : SetExpr → SetExpr → SetExpr
deriving Repr

/-- Finiteness of a set expression.  The base case is the source
`is_finite` dispatch; the `SetUnion` case is modelled from the spec's
finiteness table ("Union | L finite ∧ R finite"), since `_SetUnion` is not in
the snapshot. -/
def SetExpr.is_finite : SetExpr → Bool
  | .base s => s.is_finite
  | .SetUnion a b => a.is_finite && b.is_finite

/-- Models `_SetData.union(*args)` (set.py lines 233-240): fold left over the
operands, wrapping the accumulator and the next operand in a `_SetUnion` at
each step. -/
def SetExpr.union (s : SetExpr) (args : List SetExpr) : SetExpr :=
  List.foldl (fun tmp arg => SetExpr.SetUnion tmp arg) s args

/-- The domain assigned to a finite or ordered set at construction.  A domain
is itself a set consulted only through `__contains__`; `any` models the
universal `Any` set installed by default (set.py line 357; `Any` is not in the
snapshot and is modelled from the spec's "accept everything" default). -/
inductive DomainD where
  | any : DomainD
  | finite : List Val → DomainD
  | infinite : List InfiniteRange → DomainD
deriving DecidableEq, Repr

/-- Membership test of a domain, i.e. the `value not in self._domain` check
of `add`: `Any` accepts everything; a finite domain tests its stored values;
an infinite domain tests its ranges. -/
def DomainD.contains : DomainD → Val → Bool
  | .any, _ => true
  | .finite vs, v => vs.contains v
  | .infinite rs, v => rs.any (fun r => r.mem v)

/-- State of a `_FiniteSetData`: the mutable value store `_values` (a Python
set, modelled as its list of distinct elements) and the `_domain` assigned at
construction (set.py lines 349-359). -/
structure FiniteSetData where
  values : List Val
  domain : DomainD
deriving DecidableEq, Repr

/-- Models `_FiniteSetData.add` (set.py lines 381-396): raise ValueError (the
DomainViolation) if the raw value is not in the domain; otherwise canonicalize
with `flatten_tuple`; if the canonical value is already stored, log a warning
and leave the store unchanged (Python's `set.add` of an existing element is a
no-op); otherwise insert it.  The returned state is the set after the call;
an error means the state is unchanged, since the raise happens before any
mutation. -/
def FiniteSetData.add (S : FiniteSetData) (v : Val) : Except PyErr FiniteSetData :=
  if !(DomainD.contains S.domain v) then Except.error PyErr.valueError
  else
    let value := flatten_tuple v
    if S.values.contains value then Except.ok S
    else Except.ok { S with values := S.values ++ [value] }

/-- Lookup in a Python dict modelled as an association list with distinct
keys: the value of the first matching key, `none` for a missing key. -/
def dictGet (d : List (Val × Nat)) (k : Val) : Option Nat :=
  (d.find? (fun p => p.1 == k)).map (fun p => p.2)

/-- Key-membership test of a Python dict modelled as an association list. -/
def dictHasKey (d : List (Val × Nat)) (k : Val) : Bool :=
  d.any (fun p => p.1 == k)

/-- The dict `\x7bj : i for i, j in enumerate(l)\x7d` built from position `n`
onward: each element of `l` is mapped to its position. -/
def mkDictFrom (n : Nat) : List Val → List (Val × Nat)
  | [] => []
  | v :: rest => (v, n) :: mkDictFrom (n + 1) rest

/-- The element-to-position dict of an ordered value list, positions 0-based
as stored (`dict((j, i) for i, j in enumerate(...))`, set.py line 572). -/
def mkDict (l : List Val) : List (Val × Nat) := mkDictFrom 0 l

/-- State of an `_OrderedSetData` (set.py lines 461-483): `_values` is the
element-to-0-based-position dict, `_ordered_values` the explicit sequence,
`_is_sorted` the order state (`none` = unresolved, `some 1` = insertion order,
`some 2` = sorted, `some 3` = sort needed, matching `_InsertionOrder`,
`_Sorted`, `_SortNeeded`), and `domain` the `_domain` inherited from
`_FiniteSetData`. -/
structure OrderedSetData where
  values : List (Val × Nat)
  ordered_values : List Val
  is_sorted : Option Nat
  domain : DomainD
deriving DecidableEq, Repr

/-- The `self._is_sorted in self._DataOK` test (set.py line 475,
`_DataOK = \x7b_InsertionOrder, _Sorted\x7d`). -/
def OrderedSetData.dataOK (S : OrderedSetData) : Bool :=
  S.is_sorted == some 1 || S.is_sorted == some 2

/-- The external collaborators consulted by `_OrderedSetData._sort`:
`parent_component().ordering(self)` (the owning context's
insertion-order-vs-sorted decision) and `sorted_robust` (the total order used
to resort).  Neither is in the repository snapshot; both are modelled from the
spec as an opaque context supplied by the owner. -/
structure SortCtx where
  insertion_order : Bool
  sortFn : List Val → List Val

/-- Models `_OrderedSetData._sort` (set.py lines 567-573): an unresolved state
takes the owner's ordering decision; if the state is sort-needed, the sequence
is resorted with the external total order, the position dict is rebuilt from
scratch, and the state becomes sorted. -/
def OrderedSetData.sortStep (ctx : SortCtx) (S : OrderedSetData) : OrderedSetData :=
  let S1 := if S.is_sorted = none then
      { S with is_sorted := some (if ctx.insertion_order then 1 else 2) }
    else S
  if S1.is_sorted = some 3 then
    { S1 with ordered_values := ctx.sortFn S1.ordered_values,
              values := mkDict (ctx.sortFn S1.ordered_values),
              is_sorted := some 2 }
  else S1

/-- The `if self._is_sorted not in self._DataOK: self._sort()` guard that
opens every order-dependent accessor of `_OrderedSetData`. -/
def OrderedSetData.resolve (ctx : SortCtx) (S : OrderedSetData) : OrderedSetData :=
  if S.dataOK then S else OrderedSetData.sortStep ctx S

/-- Message of the IndexError raised when indexing past the last element
(set.py line 531). -/
def msgPastEnd : String := "Cannot index a Set past the last element"

/-- Message of the IndexError raised when indexing before the first element
(set.py line 535). -/
def msgBeforeFirst : String := "Cannot index a Set before the first element"

/-- Message of the IndexError raised for index 0 (set.py line 538). -/
def msgValidIndex : String :=
  "Valid index values for sets are 1 .. len(set) or -1 .. -len(set)"

/-- Message of the IndexError raised by `ord` when the item is absent
(set.py lines 552-555); this is the NotFound condition of the spec. -/
def msgNotFound : String :=
  "Cannot identify position of item in Set: item not in Set"

/-- Message of the IndexError raised by Python list indexing itself; only
reachable when the position dict and the ordered sequence disagree in
length. -/
def msgListIndex : String := "list index out of range"

/-- Effective 0-based position of a Python list index: a negative index
counts from the end. -/
def pyIndex (n : Nat) (i : Int) : Int :=
  if i < 0 then (n : Int) + i else i

/-- Python list subscription `l[i]`, including the negative-index convention
and the IndexError on an out-of-range index. -/
def pyListGet (l : List Val) (i : Int) : Except PyErr Val :=
  if 0 ≤ pyIndex l.length i ∧ pyIndex l.length i < (l.length : Int) then
    Except.ok (l.getD (pyIndex l.length i).toNat (Val.atom 0))
  else Except.error (PyErr.indexError msgListIndex)

/-- Body of `_OrderedSetData.__getitem__` after the sort guard (set.py lines
529-538).  The bounds are checked against `len(self)`, which is the length of
the `_values` dict, while the returned element comes from `_ordered_values`;
the two agree on a consistent state.  `item >= 1` reads 1-based from the
front; a negative `item` reads from the end through Python list indexing;
`item = 0` is rejected. -/
def OrderedSetData.getitemR (S : OrderedSetData) (item : Int) : Except PyErr Val :=
  if 1 ≤ item then
    if (S.values.length : Int) < item then Except.error (PyErr.indexError msgPastEnd)
    else pyListGet S.ordered_values (item - 1)
  else if item < 0 then
    if (S.values.length : Int) + item < 0 then
      Except.error (PyErr.indexError msgBeforeFirst)
    else pyListGet S.ordered_values item
  else Except.error (PyErr.indexError msgValidIndex)

/-- Models `_OrderedSetData.__getitem__` (set.py lines 520-538): resolve the
order state if needed, then index positionally. -/
def OrderedSetData.getitem (ctx : SortCtx) (S : OrderedSetData) (item : Int) :
    Except PyErr Val :=
  OrderedSetData.getitemR (OrderedSetData.resolve ctx S) item

/-- Models `_OrderedSetData.ord` (set.py lines 540-555): resolve the order
state if needed, then return the 1-based position of the item from the
`_values` dict, raising the NotFound IndexError when the key is missing. -/
def OrderedSetData.ord (ctx : SortCtx) (S : OrderedSetData) (item : Val) :
    Except PyErr Nat :=
  match dictGet (OrderedSetData.resolve ctx S).values item with
  | some i => Except.ok (i + 1)
  | none => Except.error (PyErr.indexError msgNotFound)

/-- Models `_OrderedSetMixin.next` (set.py lines 408-419):
`position = self.ord(item)` followed by `self[position + step]`.  After `ord`
the state is resolved, so the subscription acts on the resolved state. -/
def OrderedSetData.next (ctx : SortCtx) (S : OrderedSetData) (item : Val)
    (step : Int) : Except PyErr Val :=
  match dictGet (OrderedSetData.resolve ctx S).values item with
  | some i => OrderedSetData.getitemR (OrderedSetData.resolve ctx S) ((i : Int) + 1 + step)
  | none => Except.error (PyErr.indexError msgNotFound)

/-- Models `_OrderedSetMixin.nextw` (set.py lines 421-433):
`position = self.ord(item)` followed by
`self[(position + step - 1) % len(self) + 1]`, where `len(self)` is the
length of the `_values` dict and `%` is Python's floored modulo, which for
the positive modulus occurring here agrees with `Int.emod`. -/
def OrderedSetData.nextw (ctx : SortCtx) (S : OrderedSetData) (item : Val)
    (step : Int) : Except PyErr Val :=
  match dictGet (OrderedSetData.resolve ctx S).values item with
  | some i =>
      OrderedSetData.getitemR (OrderedSetData.resolve ctx S)
        (((i : Int) + 1 + step - 1) % (((OrderedSetData.resolve ctx S).values.length : Int)) + 1)
  | none => Except.error (PyErr.indexError msgNotFound)

/-- Models `_OrderedSetMixin.prev` (set.py lines 435-445):
`return self.next(item, -step)`. -/
def OrderedSetData.prev (ctx : SortCtx) (S : OrderedSetData) (item : Val)
    (step : Int) : Except PyErr Val :=
  OrderedSetData.next ctx S item (-step)

/-- Models `_OrderedSetMixin.prevw` (set.py lines 447-458):
`return self.nextw(item, -step)`. -/
def OrderedSetData.prevw (ctx : SortCtx) (S : OrderedSetData) (item : Val)
    (step : Int) : Except PyErr Val :=
  OrderedSetData.nextw ctx S item (-step)

/-- Models `_OrderedSetData.add` (set.py lines 497-518): raise ValueError (the
DomainViolation) if the raw value is not in the domain; otherwise canonicalize
with `flatten_tuple`; if the canonical value is already a dict key, log a
warning and change nothing; otherwise assign the next free position in the
dict, append to the sequence, and downgrade a sorted state to sort-needed.
The sort state has no bearing on insertion, so no resolve happens here. -/
def OrderedSetData.add (S : OrderedSetData) (v : Val) : Except PyErr OrderedSetData :=
  if !(DomainD.contains S.domain v) then Except.error PyErr.valueError
  else
    let value := flatten_tuple v
    if dictHasKey S.values value then Except.ok S
    else Except.ok { S with
      values := S.values ++ [(value, S.values.length)],
      ordered_values := S.ordered_values ++ [value],
      is_sorted := if S.is_sorted = some 2 then some 3 else S.is_sorted }

/-- Consistency of an ordered set's state: the position dict is exactly the
enumeration of the ordered sequence.  This is the invariant maintained by
`add` and rebuilt by `_sort`; it makes the dict length, the sequence length,
and the element-to-position mapping agree. -/
def OrderedSetData.consistent (S : OrderedSetData) : Prop :=
  S.values = mkDict S.ordered_values

/-- The unbounded-above range over the nonnegative integers, a concrete
infinite-set building block for the examples below. -/
def rgeZero : InfiniteRange := { lb := some 0, ub := none }

/-- The unbounded-below range of everything at most -5. -/
def rleNeg5 : InfiniteRange := { lb := none, ub := some (-5) }

/-- The three-element sequence 1, 2, 3 used by the concrete ordered-set
examples. -/
def ov3 : List Val := [Val.atom 1, Val.atom 2, Val.atom 3]

/-- A consistent ordered set over `ov3` in insertion-order state, as produced
by adding 1, 2, 3 in turn. -/
def exS3 : OrderedSetData :=
  { values := mkDict ov3, ordered_values := ov3, is_sorted := some 1,
    domain := DomainD.any }

/-- A concrete owning context: insertion order, identity resort. -/
def ctx0 : SortCtx := { insertion_order := true, sortFn := fun l => l }

/-- A domain holding only the flat tuple (1, 2). -/
def domNested : DomainD := DomainD.finite [tupL [Val.atom 1, Val.atom 2]]

/-- A finite set storing the canonical flat tuple (1, 2), over `domNested`. -/
def fsNested : FiniteSetData :=
  { values := [tupL [Val.atom 1, Val.atom 2]], domain := domNested }

/-- The nested tuple (1, (2,)), whose canonical (flattened) form is (1, 2). -/
def vNested : Val := tupL [Val.atom 1, tupL [Val.atom 2]]

/-- An unordered finite set storing 1, with the universal domain. -/
def fsDup : FiniteSetData := { values := [Val.atom 1], domain := DomainD.any }

/-- An ordered set storing 1 in insertion-order state. -/
def osDup : OrderedSetData :=
  { values := mkDict [Val.atom 1], ordered_values := [Val.atom 1],
    is_sorted := some 1, domain := DomainD.any }

/-- A finite set whose domain accepts nothing. -/
def fsEmptyDom : FiniteSetData := { values := [], domain := DomainD.finite [] }

/-- An ordered set whose domain accepts nothing. -/
def osEmptyDom : OrderedSetData :=
  { values := [], ordered_values := [], is_sorted := none,
    domain := DomainD.finite [] }

/-- The position dict built from a sequence has the sequence's length. -/
theorem mkDictFrom_length (l : List Val) : ∀ n : Nat, (mkDictFrom n l).length = l.length := by
  induction l with
  | nil => intro n; rfl
  | cons a rest ih => intro n; simp [mkDictFrom, ih]

/-- A successful lookup in the position dict of a sequence names the 0-based
position (offset by the start of the enumeration) of an occurrence of the key
in the sequence. -/
theorem dictGet_mkDictFrom_some (v : Val) :
    ∀ (l : List Val) (n m : Nat), dictGet (mkDictFrom n l) v = some m →
      ∃ j, j < l.length ∧ m = n + j ∧ l.get? j = some v := by
  intro l
  induction l with
  | nil => intro n m h; simp [mkDictFrom, dictGet] at h
  | cons a rest ih =>
    intro n m h
    by_cases hav : a = v
    · refine ⟨0, by simp, ?_, by simp [hav]⟩
      subst hav
      simp [mkDictFrom, dictGet, List.find?] at h
      omega
    · have hav' : (a == v) = false := by simp [hav]
      simp only [mkDictFrom, dictGet, List.find?, hav'] at h
      obtain ⟨j, hj, hm, hget⟩ := ih (n + 1) m h
      exact ⟨j + 1, by simpa using hj, by omega, by simpa using hget⟩

/-- Lookup of a key absent from the sequence fails in the position dict. -/
theorem dictGet_mkDictFrom_none (v : Val) :
    ∀ (l : List Val) (n : Nat), l.contains v = false →
      dictGet (mkDictFrom n l) v = none := by
  intro l
  induction l with
  | nil => intro n _; rfl
  | cons a rest ih =>
    intro n h
    simp only [List.contains_cons, Bool.or_eq_false_iff] at h
    have hav : (a == v) = false := by
      cases hva : (v == a) <;> simp_all [BEq.comm]
    simp only [mkDictFrom, dictGet, List.find?, hav]
    exact ih (n + 1) h.2

/-- A state already in insertion order or sorted passes the sort guard
unchanged. -/
theorem resolve_of_dataOK (ctx : SortCtx) (S : OrderedSetData)
    (h : S.dataOK = true) : OrderedSetData.resolve ctx S = S := by
  simp [OrderedSetData.resolve, h]

/-- Python list subscription at a nonnegative in-range index returns the
element there. -/
theorem pyListGet_nonneg (l : List Val) (i : Int) (h0 : 0 ≤ i)
    (h1 : i < (l.length : Int)) :
    pyListGet l i = Except.ok (l.getD i.toNat (Val.atom 0)) := by
  have hp : pyIndex l.length i = i := by
    simp [pyIndex]
    omega
  rw [pyListGet, hp, if_pos ⟨h0, h1⟩]

/-- Python list subscription at an in-range negative index returns the element
counted from the end. -/
theorem pyListGet_negIdx (l : List Val) (i : Int) (h0 : i < 0)
    (h1 : 0 ≤ (l.length : Int) + i) :
    pyListGet l i = Except.ok (l.getD ((l.length : Int) + i).toNat (Val.atom 0)) := by
  have hp : pyIndex l.length i = (l.length : Int) + i := by
    simp [pyIndex]
    omega
  rw [pyListGet, hp, if_pos ⟨h1, by omega⟩]

/-- On a state whose dict and sequence lengths agree, positional access at a
1-based index inside `[1, N]` returns the element at that position. -/
theorem getitemR_ok_pos (S : OrderedSetData)
    (hlen : S.values.length = S.ordered_values.length) (i : Int)
    (h1 : 1 ≤ i) (h2 : i ≤ (S.ordered_values.length : Int)) :
    OrderedSetData.getitemR S i =
      Except.ok (S.ordered_values.getD (i - 1).toNat (Val.atom 0)) := by
  rw [OrderedSetData.getitemR, if_pos h1, if_neg (by rw [hlen]; omega)]
  exact pyListGet_nonneg _ _ (by omega) (by omega)

/-- C1 counterexample: the claim says a finite set is NEVER a subset of an
infinite set, but the source's `issubset` for a finite self iterates the
elements and tests them against the other set, so the finite set containing 0
IS a subset of the infinite set over the range of nonnegative integers: the
call returns true, not false. -/
theorem C1_issubset_fin_inf_not_always_false :
    SetData.issubset (SetData.fin [Val.atom 0]) (SetData.inf [rgeZero]) = true := rfl

/-- C1 (amended): for every finite set S and infinite set T, `S.issubset(T)`
returns true exactly when every element of S is contained in T, i.e. lies in
some of T's ranges — not "always false" as the claim's truth table states. -/
theorem C1_issubset_fin_inf_iff (vs : List Val) (rs : List InfiniteRange) :
    SetData.issubset (SetData.fin vs) (SetData.inf rs) = true ↔
      ∀ v ∈ vs, ∃ r ∈ rs, r.mem v = true := by
  simp [SetData.issubset, SetData.contains, List.all_eq_true, List.any_eq_true]

/-- C2: for every pair of infinite sets the source's `isdisjoint` returns
`None` rather than a boolean: the infinite-infinite branch evaluates
`all(r.isdisjoint(s) for r in self.ranges() for s in other.ranges())` but the
`return` statement is missing, so the computed comparison is discarded and
the method falls through.  The claim (a boolean, true iff every range pair is
disjoint) describes the evident intent; the code drops the result. -/
theorem C2_isdisjoint_inf_inf_returns_none (rs ss : List InfiniteRange) :
    SetData.isdisjoint (SetData.inf rs) (SetData.inf ss) = none := rfl

/-- C3: `A.union(B)` always succeeds, producing the left fold of `_SetUnion`
nodes over the operands — for a single operand, exactly `_SetUnion(A, B)` —
and the composed set is finite precisely when both operands are finite (the
`_SetUnion` finiteness rule is modelled from the spec, the class not being in
the repository snapshot). -/
theorem C3_union_fold_and_finiteness (A B : SetExpr) :
    SetExpr.union A [B] = SetExpr.SetUnion A B ∧
      ((SetExpr.union A [B]).is_finite = true ↔
        (A.is_finite = true ∧ B.is_finite = true)) := by
  refine ⟨rfl, ?_⟩
  simp [SetExpr.union, SetExpr.is_finite]

/-- C4 counterexample: invoking `__len__` on a concrete infinite set does not
fail — it returns normally, with Python's `None` as the value, exactly as the
source's base `_SetData.__len__` is written (and as the header comment
"`__len__` (Note: None for all infinite sets)" documents). -/
theorem C4_len_inf_returns_none_not_error :
    SetData.pyLen (SetData.inf [rgeZero]) = Except.ok none := rfl

/-- C4 (amended): `__len__` never raises on any set; on an infinite set it
returns the undefined marker `None` (and only on infinite sets), rather than
failing with an UnsupportedOperation error as the claim states. -/
theorem C4_len_total_none_iff_infinite (s : SetData) :
    (∃ v, SetData.pyLen s = Except.ok v) ∧
      (SetData.pyLen s = Except.ok none ↔ s.is_finite = false) := by
  cases s <;> simp [SetData.pyLen, SetData.is_finite]

/-- C7 counterexample: two infinite sets holding the same two ranges in
opposite order are set-equal as range collections, yet the source's `__eq__`
compares the `ranges()` tuples with Python tuple equality — element-wise, in
order — and returns false. -/
theorem C7_eq_inf_order_sensitive :
    ([rgeZero, rleNeg5] : List InfiniteRange).toFinset =
        ([rleNeg5, rgeZero] : List InfiniteRange).toFinset ∧
      SetData.eq (SetData.inf [rgeZero, rleNeg5])
        (SetData.inf [rleNeg5, rgeZero]) = false := by
  constructor
  · decide
  · rfl

/-- C7 (amended): for infinite sets S and T, `S.equals(T)` is true exactly
when the range lists are equal as LISTS — same ranges in the same order, with
no normalization or merging — not merely equal as sets of ranges. -/
theorem C7_eq_inf_iff_list_eq (rs ss : List InfiniteRange) :
    SetData.eq (SetData.inf rs) (SetData.inf ss) = true ↔ rs = ss := by
  simp [SetData.eq]

/-- C5: the claim (and the source's own docstrings for `next`/`prev`) say the
target position `p + step` outside `[1, N]` always fails IndexOutOfRange, but
when the target is negative yet at least `-N` the subscription falls into
Python's negative-index convention and RETURNS an element instead of raising:
on the ordered set 1, 2, 3, `next(1, -2)` — equivalently `prev(1, 2)` — has
target position -1 and returns the LAST element 3 rather than failing. -/
theorem C5_next_negative_target_wraps :
    OrderedSetData.next ctx0 exS3 (Val.atom 1) (-2) = Except.ok (Val.atom 3) ∧
      OrderedSetData.prev ctx0 exS3 (Val.atom 1) 2 = Except.ok (Val.atom 3) :=
  ⟨rfl, rfl⟩

/-- C6: positional access on a resolved, consistent ordered set of length N is
1-based: for `1 ≤ i ≤ N` it returns the i-th element and for `i > N` it fails
IndexOutOfRange; for `-N ≤ i < 0` it returns the |i|-th element from the end
(position N + i + 1) and for `i < -N` it fails IndexOutOfRange; `i = 0` fails
with the invalid-index error. -/
theorem C6_getitem_positional (ctx : SortCtx) (S : OrderedSetData) (i : Int)
    (hok : S.dataOK = true) (hc : S.consistent) :
    (1 ≤ i → i ≤ (S.ordered_values.length : Int) →
      OrderedSetData.getitem ctx S i =
        Except.ok (S.ordered_values.getD (i - 1).toNat (Val.atom 0))) ∧
    ((S.ordered_values.length : Int) < i →
      OrderedSetData.getitem ctx S i = Except.error (PyErr.indexError msgPastEnd)) ∧
    (i < 0 → -i ≤ (S.ordered_values.length : Int) →
      OrderedSetData.getitem ctx S i =
        Except.ok (S.ordered_values.getD
          ((S.ordered_values.length : Int) + i).toNat (Val.atom 0))) ∧
    (i < 0 → (S.ordered_values.length : Int) < -i →
      OrderedSetData.getitem ctx S i =
        Except.error (PyErr.indexError msgBeforeFirst)) ∧
    (i = 0 →
      OrderedSetData.getitem ctx S i =
        Except.error (PyErr.indexError msgValidIndex)) := by
  have hlen : S.values.length = S.ordered_values.length := by
    rw [hc]; exact mkDictFrom_length _ 0
  rw [OrderedSetData.getitem, resolve_of_dataOK ctx S hok]
  refine ⟨?_, ?_, ?_, ?_, ?_⟩
  · intro h1 h2
    exact getitemR_ok_pos S hlen i h1 h2
  · intro h
    rw [OrderedSetData.getitemR, if_pos (by omega : (1 : Int) ≤ i),
      if_pos (by omega : (S.values.length : Int) < i)]
  · intro h0 hN
    rw [OrderedSetData.getitemR, if_neg (by omega : ¬ (1 : Int) ≤ i), if_pos h0,
      if_neg (by rw [hlen]; omega), pyListGet_negIdx _ _ h0 (by omega)]
  · intro h0 hN
    rw [OrderedSetData.getitemR, if_neg (by omega : ¬ (1 : Int) ≤ i), if_pos h0,
      if_pos (by rw [hlen]; omega)]
  · intro h0
    rw [OrderedSetData.getitemR, if_neg (by omega), if_neg (by omega)]

/-- C6 witness: on the concrete ordered set 1, 2, 3, `index(-1)` returns the
last element 3. -/
theorem C6_getitem_witness :
    OrderedSetData.getitem ctx0 exS3 (-1) = Except.ok (Val.atom 3) :=
  (C6_getitem_positional ctx0 exS3 (-1) rfl rfl).2.2.1 (by decide) (by decide)

/-- C10: on a resolved, consistent ordered set, for a member item whose
0-based dict position is k (1-based position p = k + 1) and any integer step,
`nextw` returns the element at 1-based position `((p + step - 1) mod N) + 1`
— i.e. at 0-based position `(k + step) mod N` — so in particular the set is
nonempty, the arithmetic always lands inside `[1, N]` and never raises
IndexOutOfRange; `prevw(item, step)` is literally `nextw(item, -step)`; and
an absent item still fails with the NotFound error. -/
theorem C10_nextw_wraparound (ctx : SortCtx) (S : OrderedSetData) (item : Val)
    (step : Int) (k : Nat) (hok : S.dataOK = true) (hc : S.consistent)
    (hk : dictGet S.values item = some k) :
    0 < S.ordered_values.length ∧
    OrderedSetData.nextw ctx S item step =
      Except.ok (S.ordered_values.getD
        ((((k : Int) + step) % (S.ordered_values.length : Int)).toNat)
        (Val.atom 0)) ∧
    OrderedSetData.prevw ctx S item step = OrderedSetData.nextw ctx S item (-step) ∧
    (∀ w : Val, S.ordered_values.contains w = false →
      OrderedSetData.nextw ctx S w step =
        Except.error (PyErr.indexError msgNotFound)) := by
  have hlen : S.values.length = S.ordered_values.length := by
    rw [hc]; exact mkDictFrom_length _ 0
  have hk' : dictGet (mkDictFrom 0 S.ordered_values) item = some k := by
    have hmk : dictGet (mkDict S.ordered_values) item = some k := by
      rw [← hc]; exact hk
    exact hmk
  obtain ⟨j, hj, hkj, hget⟩ := dictGet_mkDictFrom_some item S.ordered_values 0 k hk'
  have hjk : j = k := by omega
  subst hjk
  have hN : 0 < S.ordered_values.length := Nat.lt_of_le_of_lt (Nat.zero_le j) hj
  have hNne : (S.ordered_values.length : Int) ≠ 0 := by omega
  have hNpos : (0 : Int) < (S.ordered_values.length : Int) := by omega
  refine ⟨hN, ?_, rfl, ?_⟩
  · have harith : ((j : Int) + 1 + step - 1) = (j : Int) + step := by ring
    have hml : 0 ≤ ((j : Int) + step) % (S.ordered_values.length : Int) :=
      Int.emod_nonneg _ hNne
    have hmu : ((j : Int) + step) % (S.ordered_values.length : Int) <
        (S.ordered_values.length : Int) := Int.emod_lt_of_pos _ hNpos
    rw [OrderedSetData.nextw, resolve_of_dataOK ctx S hok, hk]
    simp only [harith, hlen]
    rw [getitemR_ok_pos S hlen _ (by omega) (by omega)]
    congr 2
    omega
  · intro w hw
    have hwn : dictGet S.values w = none := by
      rw [hc]; exact dictGet_mkDictFrom_none w S.ordered_values 0 hw
    rw [OrderedSetData.nextw, resolve_of_dataOK ctx S hok, hwn]

/-- C10 witness: on the concrete ordered set 1, 2, 3, `nextw(last)` wraps to
the first element. -/
theorem C10_nextw_witness :
    OrderedSetData.nextw ctx0 exS3 (Val.atom 3) 1 = Except.ok (Val.atom 1) :=
  (C10_nextw_wraparound ctx0 exS3 (Val.atom 3) 1 2 rfl rfl rfl).2.1

/-- C8 counterexample: the domain check of `add` runs on the RAW value before
canonicalization, so a value whose flattened form is already stored can still
raise DomainViolation: `fsNested` stores the canonical form of `vNested`, yet
`add(vNested)` raises ValueError because the raw nested tuple is not in the
domain — contradicting the claim that such an `add` never raises. -/
theorem C8_add_can_raise_on_present_canonical :
    fsNested.values.contains (flatten_tuple vNested) = true ∧
      FiniteSetData.add fsNested vNested = Except.error PyErr.valueError :=
  ⟨rfl, rfl⟩

/-- C8 (amended): for a value that passes the domain check and whose canonical
(flattened) form is already stored, `add` does not raise — it logs a warning
and returns with the ENTIRE state unchanged (the very same value store,
insertion sequence, position dict, and order state), for finite sets and
ordered sets alike. -/
theorem C8_duplicate_add_noop (S : FiniteSetData) (T : OrderedSetData) (v w : Val)
    (hvd : DomainD.contains S.domain v = true)
    (hv : S.values.contains (flatten_tuple v) = true)
    (hwd : DomainD.contains T.domain w = true)
    (hw : dictHasKey T.values (flatten_tuple w) = true) :
    FiniteSetData.add S v = Except.ok S ∧
      OrderedSetData.add T w = Except.ok T := by
  constructor
  · simp only [FiniteSetData.add, hvd, Bool.not_true, Bool.false_eq_true,
      if_false, hv, if_true]
  · simp only [OrderedSetData.add, hwd, Bool.not_true, Bool.false_eq_true,
      if_false, hw, if_true]

/-- C8 witness: re-adding the already-stored value 1 leaves both example sets
exactly as they were. -/
theorem C8_duplicate_add_witness :
    FiniteSetData.add fsDup (Val.atom 1) = Except.ok fsDup ∧
      OrderedSetData.add osDup (Val.atom 1) = Except.ok osDup :=
  C8_duplicate_add_noop fsDup osDup (Val.atom 1) (Val.atom 1) rfl rfl rfl rfl

/-- C9: adding a value outside the assigned domain raises ValueError (the
DomainViolation) synchronously, for finite sets and ordered sets alike; the
raise happens before any mutation, so the error result carries no new state
and the set is unchanged afterward. -/
theorem C9_domain_violation_add (S : FiniteSetData) (T : OrderedSetData)
    (v w : Val) (hv : DomainD.contains S.domain v = false)
    (hw : DomainD.contains T.domain w = false) :
    FiniteSetData.add S v = Except.error PyErr.valueError ∧
      OrderedSetData.add T w = Except.error PyErr.valueError := by
  constructor
  · simp only [FiniteSetData.add, hv, Bool.not_false, if_true]
  · simp only [OrderedSetData.add, hw, Bool.not_false, if_true]

/-- C9 witness: adding 0 to a set with an empty domain raises the
DomainViolation on both set kinds. -/
theorem C9_domain_violation_witness :
    FiniteSetData.add fsEmptyDom (Val.atom 0) = Except.error PyErr.valueError ∧
      OrderedSetData.add osEmptyDom (Val.atom 0) = Except.error PyErr.valueError :=
  C9_domain_violation_add fsEmptyDom osEmptyDom (Val.atom 0) (Val.atom 0) rfl rfl
